import Mathlib

/-!
Verification development for the spell-checker server core
(`packages/_server/src/server.ts` and `documentSettings.ts`).

The development shallowly embeds the document-validation scheduling pipeline
and the hierarchical configuration-resolution cache.  External collaborators
(the analyzer, the transport layer, file reads, host configuration fetches,
glob matching) are supplied through explicit environment records, following
the interface contracts of the design document.  Asynchronous/stateful code
is embedded as explicit state passing over a server-state record, with the
single-threaded event loop modelled as a small-step transition function on
events.
-/

namespace SpellServer

/-- A per-file override rule payload: the subset of settings an override can
set (embedding of the settings entries scoped to glob patterns). -/
structure OverridePatch where
  enabled : Option Bool := none
  checkLimit : Option Nat := none
  spellCheckDelayMs : Option Nat := none
  enabledLanguageIds : Option (List String) := none
  ignorePaths : Option (List String) := none
deriving DecidableEq, Repr

/-- A per-file override rule: glob patterns plus the settings patch applied
when a pattern matches the file path. -/
structure OverrideRule where
  filename : List String
  patch : OverridePatch
deriving DecidableEq, Repr

/-- Embedding of the `CSpellUserSettings` fields used by the server core.
Optional fields are `Option`-valued: `none` is JavaScript `undefined`. -/
structure CSpellUserSettings where
  id : Option String := none
  enabled : Option Bool := none
  checkLimit : Option Nat := none
  spellCheckDelayMs : Option Nat := none
  enabledLanguageIds : Option (List String) := none
  allowedSchemas : Option (List String) := none
  ignorePaths : Option (List String) := none
  overrides : Option (List OverrideRule) := none
deriving DecidableEq, Repr

/-- Merge for a scalar-valued settings key: the later (right) value wins when
present, otherwise the earlier value is kept. -/
def mergeScalar {α : Type} (a b : Option α) : Option α :=
  match b with
  | some v => some v
  | none => a

/-- Merge for an array-valued settings key: lists from both sides are
concatenated, never replaced. -/
def mergeList {α : Type} (a b : Option (List α)) : Option (List α) :=
  match a, b with
  | none, none => none
  | some x, none => some x
  | none, some y => some y
  | some x, some y => some (x ++ y)

/-- Modelled from the spec: `CSpell.mergeSettings` of the external cspell
library (the source only imports it).  Later settings override earlier ones
on conflicting scalar keys; array-valued keys such as ignore-path lists and
enabled-language lists are concatenated, never replaced. -/
def mergeSettings (a b : CSpellUserSettings) : CSpellUserSettings :=
  { id := mergeScalar a.id b.id
    enabled := mergeScalar a.enabled b.enabled
    checkLimit := mergeScalar a.checkLimit b.checkLimit
    spellCheckDelayMs := mergeScalar a.spellCheckDelayMs b.spellCheckDelayMs
    enabledLanguageIds := mergeList a.enabledLanguageIds b.enabledLanguageIds
    allowedSchemas := mergeScalar a.allowedSchemas b.allowedSchemas
    ignorePaths := mergeList a.ignorePaths b.ignorePaths
    overrides := mergeList a.overrides b.overrides }

/-- Empty settings object (JavaScript `{}`). -/
def emptySettings : CSpellUserSettings := {}

/-- Scheme extraction after `Uri.parse`: the characters before the first `:`
form the scheme provided they are non-empty and contain no `/`, `?` or `#`
(so the first `:`/`/`/`?`/`#` in the string must be a `:`); otherwise
(non-strict parsing) the scheme defaults to `file`. -/
def uriScheme (uri : String) : String :=
  let cs := uri.data
  let pre := cs.takeWhile (fun c => c != ':' && c != '/' && c != '?' && c != '#')
  match cs.drop pre.length with
  | ':' :: _ => if pre.length > 0 then ⟨pre⟩ else "file"
  | _ => "file"

/-- `doesUriMatchAnyScheme` from `documentSettings.ts`: true iff the parsed
scheme of the URI occurs in the scheme list. -/
def doesUriMatchAnyScheme (uri : String) (schemes : List String) : Bool :=
  let schema := uriScheme uri
  (schemes.findIdx? (fun v => v == schema)).isSome

/-- Default allowed URI schemes. -/
def defaultAllowedSchemes : List String := ["file", "untitled"]

/-- Fixed scheme block-list. -/
def schemeBlackList : List String := ["git", "output", "debug", "vscode"]

/-- `isUriAllowed` from `documentSettings.ts`; `none` for the scheme list
means the caller passed `undefined`, replaced by the default list. -/
def isUriAllowed (uri : String) (schemes : Option (List String) := none) : Bool :=
  doesUriMatchAnyScheme uri (schemes.getD defaultAllowedSchemes)

/-- `isUriBlackListed` from `documentSettings.ts`. -/
def isUriBlackListed (uri : String) (schemes : List String := schemeBlackList) : Bool :=
  doesUriMatchAnyScheme uri schemes

/-- A host workspace folder: URI plus display name. -/
structure WorkspaceFolder where
  uri : String
  name : String
deriving DecidableEq, Repr

/-- JavaScript `s.slice(0, n)` (clamped initial segment of the string). -/
def strTake (s : String) (n : Nat) : String := ⟨s.data.take n⟩

/-- Comparison used by the folder sort: ascending URI length. -/
def folderLenLe (a b : WorkspaceFolder) : Prop := a.uri.length ≤ b.uri.length

instance : DecidableRel folderLenLe :=
  fun a b => inferInstanceAs (Decidable (a.uri.length ≤ b.uri.length))

instance : IsTotal WorkspaceFolder folderLenLe := ⟨fun a b => Nat.le_total _ _⟩

instance : IsTrans WorkspaceFolder folderLenLe := ⟨fun _ _ _ => Nat.le_trans⟩

/-- `DocumentSettings.matchingFoldersForUri`: keep the folders whose URI
equals the document URI sliced to the folder-URI length, sort ascending by
URI length, then reverse (longest first). -/
def matchingFoldersForUri (folders : List WorkspaceFolder) (docUri : String) :
    List WorkspaceFolder :=
  (List.insertionSort folderLenLe
    (folders.filter (fun f => f.uri == strTake docUri f.uri.length))).reverse

/-- `Uri.file('').toString()`. -/
def defaultRootUri : String := "file:///"

/-- Path component of a parsed URI: drop the `scheme:` head and, when an
authority `//auth` follows, drop it up to the next `/`. -/
def uriPath (uri : String) : String :=
  let rest :=
    match uri.splitOn ":" with
    | pre :: tail₁ :: tail₂ =>
      if pre.length > 0 && pre.all (fun c => c != '/' && c != '?' && c != '#') then
        String.intercalate ":" (tail₁ :: tail₂)
      else uri
    | _ => uri
  if rest.startsWith "//" then
    match (rest.drop 2).splitOn "/" with
    | _ :: segTail₁ :: segTail₂ => "/" ++ String.intercalate "/" (segTail₁ :: segTail₂)
    | _ => ""
  else rest

/-- `Uri.parse(uri).with({ path: '' }).toString()`: scheme (plus authority)
with the path emptied. -/
def uriWithEmptyPath (uri : String) : String :=
  let scheme := uriScheme uri
  let rest :=
    match uri.splitOn ":" with
    | pre :: tail₁ :: tail₂ =>
      if pre.length > 0 && pre.all (fun c => c != '/' && c != '?' && c != '#') then
        String.intercalate ":" (tail₁ :: tail₂)
      else uri
    | _ => uri
  if rest.startsWith "//" then
    match (rest.drop 2).splitOn "/" with
    | auth :: _ => scheme ++ "://" ++ auth
    | _ => scheme ++ "://"
  else scheme ++ ":"

/-- `fsPath` of a parsed URI, modelled as its path component (the drive-letter
normalization of Windows paths is immaterial here). -/
def uriFsPath (uri : String) : String := uriPath uri

/-- `defaultDebounce` from `server.ts`. -/
def defaultDebounce : Nat := 50

/-- JavaScript `x || y` for an optional number `x`: `undefined` and `0` are
falsy and give `y`. -/
def jsOrNat (x : Option Nat) (y : Nat) : Nat :=
  match x with
  | some v => if v = 0 then y else v
  | none => y

/-- The timer duration used by the validation debounce:
`dsp.settings.spellCheckDelayMs || defaultDebounce`. -/
def debounceDelay (settings : CSpellUserSettings) : Nat :=
  jsOrNat settings.spellCheckDelayMs defaultDebounce

/-- Result of the host `getConfiguration` call for one scope: the `cSpell`
section plus the globs extracted from the `search.exclude` section (the
extraction itself is an external helper, so its output is taken as data). -/
structure VSCodeConfigResult where
  cSpell : CSpellUserSettings
  searchExcludeGlobs : List String
deriving DecidableEq, Repr

/-- `ExtSettings` from `documentSettings.ts`: per-folder merged settings plus
the inputs of the compiled glob matcher (glob list and root). -/
structure ExtSettings where
  uri : String
  vscodeSettings : CSpellUserSettings
  settings : CSpellUserSettings
  globs : List String
  globRoot : String
deriving DecidableEq, Repr

/-- `defaultExclude` from `documentSettings.ts`. -/
def defaultExclude : List String :=
  ["**/*.rendered", "**/*.*.rendered", "__pycache__/**"]

/-- `CSpell.defaultSettingsFilename` of the external cspell library. -/
def defaultSettingsFilename : String := "cSpell.json"

/-- Environment of external collaborators for the settings resolution:
host configuration fetches, config-file reads, workspace folders, the
imported-settings computation and the black-box glob matcher. -/
structure SettingsEnv where
  defaultSettings : CSpellUserSettings
  workspaceFolders : List WorkspaceFolder
  importedSettings : CSpellUserSettings
  vscodeConfig : String → VSCodeConfigResult
  readConfigFiles : List String → CSpellUserSettings
  existsSync : String → Bool
  globMatch : String → String → Bool

/-- `configPathsForRoot` from `documentSettings.ts`. -/
def configPathsForRoot (workspaceRootUri : String) : List String :=
  let workspaceRoot := if workspaceRootUri ≠ "" then uriFsPath workspaceRootUri else ""
  if workspaceRoot ≠ "" then
    [workspaceRoot ++ "/.vscode/" ++ defaultSettingsFilename.toLower,
     workspaceRoot ++ "/.vscode/" ++ defaultSettingsFilename,
     workspaceRoot ++ "/" ++ defaultSettingsFilename.toLower,
     workspaceRoot ++ "/" ++ defaultSettingsFilename]
  else []

/-- `readSettingsFiles` from `documentSettings.ts`: keep the paths that exist
and hand them to the external settings reader. -/
def readSettingsFilesLocal (env : SettingsEnv) (paths : List String) : CSpellUserSettings :=
  env.readConfigFiles (paths.filter env.existsSync)

/-- `readSettingsForFolderUri` from `documentSettings.ts`. -/
def readSettingsForFolderUri (env : SettingsEnv) (uri : String) : CSpellUserSettings :=
  if uri ≠ "" then readSettingsFilesLocal env (configPathsForRoot uri) else {}

/-- `DocumentSettings.fetchSettingsFromVSCode`: take the host `cSpell`
section, stamp it with the id `VSCode-Config` and append the `search.exclude`
globs to its ignore paths. -/
def fetchSettingsFromVSCode (env : SettingsEnv) (uri : String) : CSpellUserSettings :=
  let cfg := env.vscodeConfig uri
  { cfg.cSpell with
    id := some "VSCode-Config"
    ignorePaths := some ((cfg.cSpell.ignorePaths.getD []) ++ cfg.searchExcludeGlobs) }

/-- Body of `DocumentSettings._fetchSettingsForFolderUri` given the host
settings and the config-file settings for the folder: the config-file
settings are merged over the host settings, and the glob matcher inputs are
the default excludes plus the merged ignore paths, rooted at the folder
path. -/
def mkExtSettings (uri : String) (cSpellConfigSettings fileSettings : CSpellUserSettings) :
    ExtSettings :=
  let mergedSettings := mergeSettings cSpellConfigSettings fileSettings
  let ignorePaths := mergedSettings.ignorePaths.getD []
  { uri := uri
    vscodeSettings := cSpellConfigSettings
    settings := mergedSettings
    globs := defaultExclude ++ ignorePaths
    globRoot := uriPath uri }

/-- `DocumentSettings._fetchSettingsForFolderUri` (cache-free form). -/
def _fetchSettingsForFolderUri (env : SettingsEnv) (uri : String) : ExtSettings :=
  mkExtSettings uri (fetchSettingsFromVSCode env uri) (readSettingsForFolderUri env uri)

/-- `DocumentSettings.findMatchingFolder`: first (longest) matching folder,
or a synthesized root folder from the document URI with an emptied path. -/
def findMatchingFolder (env : SettingsEnv) (docUri : String) : WorkspaceFolder :=
  (matchingFoldersForUri env.workspaceFolders docUri).headD
    { uri := uriWithEmptyPath (if docUri = "" then defaultRootUri else docUri), name := "root" }

/-- `CSpell.calcOverrideSettings` of the external cspell library, modelled
from the spec: per-file override rules whose globs match the file path are
applied, in order, on top of the merged settings.  Glob matching is the
black-box predicate `globMatch`. -/
def applyOverridePatch (s : CSpellUserSettings) (p : OverridePatch) : CSpellUserSettings :=
  { s with
    enabled := mergeScalar s.enabled p.enabled
    checkLimit := mergeScalar s.checkLimit p.checkLimit
    spellCheckDelayMs := mergeScalar s.spellCheckDelayMs p.spellCheckDelayMs
    enabledLanguageIds := mergeList s.enabledLanguageIds p.enabledLanguageIds
    ignorePaths := mergeList s.ignorePaths p.ignorePaths }

/-- Application of the override rules of `s` that match `filename`. -/
def calcOverrideSettings (globMatch : String → String → Bool)
    (s : CSpellUserSettings) (filename : String) : CSpellUserSettings :=
  ((s.overrides.getD []).filter
      (fun o => o.filename.any (fun g => globMatch g filename))).foldl
    (fun acc o => applyOverridePatch acc o.patch) s

/-- `DocumentSettings.fetchUriSettings` (cache-free form): resolve the owning
folder, fetch its folder settings, merge defaults then imported settings then
the folder settings, and apply the per-file override rules. -/
def fetchUriSettings (env : SettingsEnv) (uri : String) : CSpellUserSettings :=
  let folder := findMatchingFolder env uri
  let folderSettings := _fetchSettingsForFolderUri env folder.uri
  let spellSettings :=
    mergeSettings (mergeSettings env.defaultSettings env.importedSettings)
      folderSettings.settings
  calcOverrideSettings env.globMatch spellSettings (uriFsPath uri)

/-- `DocumentSettings._getUriSettings` (cache-free form): an empty URI
bypasses folder lookup and merges only defaults and imported settings. -/
def _getUriSettings (env : SettingsEnv) (uri : String) : CSpellUserSettings :=
  if uri = "" then mergeSettings env.defaultSettings env.importedSettings
  else fetchUriSettings env uri

/-- The mutable cache state of a `DocumentSettings` instance.  Modelled from
the spec: the `createAutoLoadCache`/`createLazyValue` helpers of `autoLoad`
(whose source is not part of the core files) memoize per key / once, support
`clear`, and every instance constructed through `createCache`/`createLazy` is
pushed onto the central `cachedValues` registry — here that registry is the
set of fields of this record, all of which `resetSettings` clears. -/
structure DSState where
  uriSettingsCache : List (String × CSpellUserSettings) := []
  folderSettingsCache : List (String × ExtSettings) := []
  cspellFileSettingsByFolderCache : List (String × CSpellUserSettings) := []
  vscodeConfigCache : List (String × VSCodeConfigResult) := []
  foldersLazy : Option (List WorkspaceFolder) := none
  importedSettingsLazy : Option CSpellUserSettings := none
  version : Nat := 0
deriving Repr

/-- The fresh cache state of a newly constructed `DocumentSettings`. -/
def initialDSState : DSState := {}

/-- `DocumentSettings.resetSettings`: clear every registered cache and lazy
value and bump the version counter. -/
def resetSettings (s : DSState) : DSState :=
  { uriSettingsCache := []
    folderSettingsCache := []
    cspellFileSettingsByFolderCache := []
    vscodeConfigCache := []
    foldersLazy := none
    importedSettingsLazy := none
    version := s.version + 1 }

/-- Cached `fetchVSCodeConfiguration`. -/
def fetchVSCodeConfigurationSt (env : SettingsEnv) (s : DSState) (uri : String) :
    VSCodeConfigResult × DSState :=
  match s.vscodeConfigCache.lookup uri with
  | some v => (v, s)
  | none =>
    let v := env.vscodeConfig uri
    (v, { s with vscodeConfigCache := (uri, v) :: s.vscodeConfigCache })

/-- Cached `_cspellFileSettingsByFolderCache.get`. -/
def fileSettingsByFolderSt (env : SettingsEnv) (s : DSState) (uri : String) :
    CSpellUserSettings × DSState :=
  match s.cspellFileSettingsByFolderCache.lookup uri with
  | some v => (v, s)
  | none =>
    let v := readSettingsForFolderUri env uri
    (v, { s with cspellFileSettingsByFolderCache := (uri, v) :: s.cspellFileSettingsByFolderCache })

/-- `fetchSettingsFromVSCode` through the configuration cache. -/
def fetchSettingsFromVSCodeSt (env : SettingsEnv) (s : DSState) (uri : String) :
    CSpellUserSettings × DSState :=
  let (cfg, s₁) := fetchVSCodeConfigurationSt env s uri
  ({ cfg.cSpell with
      id := some "VSCode-Config"
      ignorePaths := some ((cfg.cSpell.ignorePaths.getD []) ++ cfg.searchExcludeGlobs) }, s₁)

/-- `_fetchSettingsForFolderUri` through the caches. -/
def _fetchSettingsForFolderUriSt (env : SettingsEnv) (s : DSState) (uri : String) :
    ExtSettings × DSState :=
  let (vs, s₁) := fetchSettingsFromVSCodeSt env s uri
  let (fileS, s₂) := fileSettingsByFolderSt env s₁ uri
  (mkExtSettings uri vs fileS, s₂)

/-- Cached `fetchSettingsForUri`. -/
def fetchSettingsForUriSt (env : SettingsEnv) (s : DSState) (uri : String) :
    ExtSettings × DSState :=
  match s.folderSettingsCache.lookup uri with
  | some v => (v, s)
  | none =>
    let (v, s₁) := _fetchSettingsForFolderUriSt env s uri
    (v, { s₁ with folderSettingsCache := (uri, v) :: s₁.folderSettingsCache })

/-- The `_folders` lazy value. -/
def foldersSt (env : SettingsEnv) (s : DSState) : List WorkspaceFolder × DSState :=
  match s.foldersLazy with
  | some v => (v, s)
  | none => (env.workspaceFolders, { s with foldersLazy := some env.workspaceFolders })

/-- The `importedSettings` lazy value. -/
def importedSettingsSt (env : SettingsEnv) (s : DSState) : CSpellUserSettings × DSState :=
  match s.importedSettingsLazy with
  | some v => (v, s)
  | none => (env.importedSettings, { s with importedSettingsLazy := some env.importedSettings })

/-- `fetchUriSettings` through the caches. -/
def fetchUriSettingsSt (env : SettingsEnv) (s : DSState) (uri : String) :
    CSpellUserSettings × DSState :=
  let (folders, s₁) := foldersSt env s
  let folder := (matchingFoldersForUri folders uri).headD
    { uri := uriWithEmptyPath (if uri = "" then defaultRootUri else uri), name := "root" }
  let (folderSettings, s₂) := fetchSettingsForUriSt env s₁ folder.uri
  let (imported, s₃) := importedSettingsSt env s₂
  (calcOverrideSettings env.globMatch
      (mergeSettings (mergeSettings env.defaultSettings imported) folderSettings.settings)
      (uriFsPath uri),
    s₃)

/-- `_getUriSettings` through the caches. -/
def _getUriSettingsSt (env : SettingsEnv) (s : DSState) (uri : String) :
    CSpellUserSettings × DSState :=
  if uri = "" then
    let (imported, s₁) := importedSettingsSt env s
    (mergeSettings env.defaultSettings imported, s₁)
  else fetchUriSettingsSt env s uri

/-- `DocumentSettings.getUriSettings`: the per-URI settings cache wrapping
`_getUriSettings`. -/
def getUriSettingsSt (env : SettingsEnv) (s : DSState) (uri : String) :
    CSpellUserSettings × DSState :=
  match s.uriSettingsCache.lookup uri with
  | some v => (v, s)
  | none =>
    let (v, s₁) := _getUriSettingsSt env s uri
    (v, { s₁ with uriSettingsCache := (uri, v) :: s₁.uriSettingsCache })

/-- An open text document as seen by the server: URI, language id and
monotone version (the text itself is only handed on to collaborators). -/
structure Doc where
  uri : String
  languageId : String
  version : Nat
deriving DecidableEq, Repr

/-- One diagnostic record (its contents are opaque to the scheduler). -/
abbrev Diagnostic := String

/-- A publish-diagnostics payload. -/
structure ValidationResult where
  uri : String
  diagnostics : List Diagnostic
deriving DecidableEq, Repr

/-- The `doc`/`settings` pair flowing through the validation pipeline. -/
structure DocSettingPair where
  doc : Doc
  settings : CSpellUserSettings
deriving DecidableEq, Repr

/-- Environment of the collaborators used by `validateTextDocument`.
Fallible asynchronous steps return `Except`: `.error` is a thrown/rejected
failure. -/
structure ValidateEnv where
  isExcluded : String → Except String Bool
  constructSettingsForText : Doc → Except String CSpellUserSettings
  analyze : Doc → CSpellUserSettings → Except String (List Diagnostic)

/-- `isLanguageEnabled` from `server.ts`: the document's language id occurs
in `enabledLanguageIds` (defaulting to the empty list). -/
def isLanguageEnabled (doc : Doc) (settings : CSpellUserSettings) : Bool :=
  ((settings.enabledLanguageIds.getD []).findIdx? (fun v => v == doc.languageId)).isSome

/-- `shouldValidateDocument` from `server.ts`:
`!!settings.enabled && isLanguageEnabled(...) && !(await isUriExcluded(uri))`,
with JavaScript short-circuiting (the exclusion check only runs — and can
only throw — when the first two conjuncts hold). -/
def shouldValidateDocument (env : ValidateEnv) (doc : Doc)
    (settings : CSpellUserSettings) : Except String Bool :=
  if settings.enabled.getD false && isLanguageEnabled doc settings then
    (env.isExcluded doc.uri).map (fun excl => !excl)
  else pure false

/-- The `try` body of `validate` inside `validateTextDocument`.  `some r` is
an explicit `return r`; `none` reaches the end of the `try` block (the
enabled check failed) and falls through to the shared final return. -/
def validateAttempt (env : ValidateEnv) (dsp : DocSettingPair) :
    Except String (Option ValidationResult) := do
  let doc := dsp.doc
  let settings := dsp.settings
  let uri := doc.uri
  if !(isUriAllowed uri settings.allowedSchemas) then
    return some { uri := uri, diagnostics := [] }
  let shouldCheck ← shouldValidateDocument env doc settings
  if !shouldCheck then
    return some { uri := uri, diagnostics := [] }
  let settingsToUse ← env.constructSettingsForText doc
  if settingsToUse.enabled.getD false then
    let diagnostics ← env.analyze doc settingsToUse
    return some { uri := uri, diagnostics := diagnostics }
  return none

/-- `validateTextDocument` from `server.ts` (result value): any caught
failure, and the fall-through path, produce an empty diagnostics result for
the document's URI. -/
def validateTextDocument (env : ValidateEnv) (dsp : DocSettingPair) : ValidationResult :=
  match validateAttempt env dsp with
  | .ok (some r) => r
  | .ok none => { uri := dsp.doc.uri, diagnostics := [] }
  | .error _ => { uri := dsp.doc.uri, diagnostics := [] }

/-- The per-document pipeline tracked in `validationByDoc`.  A blacklisted
URI gets a consume-and-ignore subscription; an active pipeline carries the
pending debounced document, if any. -/
inductive PipelineKind where
  | blacklisted : PipelineKind
  | active : Option Doc → PipelineKind
deriving DecidableEq, Repr

/-- The scheduler state of `run()` in `server.ts`: the per-document pipeline
map, the save-blackout map, the global busy flag, and (for stating the
overlap invariant) the multiset of URIs with an analyzer call in flight. -/
structure ServerState where
  validationByDoc : List (String × PipelineKind)
  blockValidation : List (String × Nat)
  isValidationBusy : Bool
  inFlight : List String
deriving DecidableEq, Repr

/-- The state right after `run()` wires everything up. -/
def initialServerState : ServerState :=
  { validationByDoc := []
    blockValidation := []
    isValidationBusy := false
    inFlight := [] }

/-- Events delivered to the scheduler by the event loop.  `timer uri` is the
debounce timer of `uri`'s pipeline firing; `done uri` is the completion of
the in-flight analyzer call for `uri`. -/
inductive SchedEvent where
  | change : Doc → SchedEvent
  | timer : String → SchedEvent
  | done : String → SchedEvent
  | willSave : String → Nat → SchedEvent
  | didSave : Doc → SchedEvent
  | close : String → SchedEvent
deriving DecidableEq, Repr

/-- Observable actions of a scheduler step. -/
inductive SchedAction where
  | createPipeline : String → SchedAction
  | analyzeStart : String → SchedAction
  | publish : String → SchedAction
  | clearDiagnostics : String → SchedAction
deriving DecidableEq, Repr

/-- `Map.set` on an association list: replace the binding if the key is
present, otherwise add it. -/
def mapSet {α : Type} (m : List (String × α)) (k : String) (v : α) : List (String × α) :=
  if (m.lookup k).isSome then m.map (fun p => if p.1 == k then (p.1, v) else p)
  else (k, v) :: m

/-- `Map.delete` on an association list. -/
def mapDelete {α : Type} (m : List (String × α)) (k : String) : List (String × α) :=
  m.filter (fun p => p.1 != k)

/-- Replace the pending debounced document of `uri`'s active pipeline. -/
def setPending (m : List (String × PipelineKind)) (uri : String) (pending : Option Doc) :
    List (String × PipelineKind) :=
  m.map (fun p => if p.1 == uri then (p.1, PipelineKind.active pending) else p)

/-- A document event arriving on `validationRequestStream`: when no pipeline
exists for the URI, a pipeline is created — a consume-and-ignore one when the
scheme is blacklisted, otherwise an active one that immediately receives the
replayed document; when a pipeline exists, a blacklisted pipeline ignores the
event and an active one restarts its debounce with the new document. -/
def routeDocEvent (s : ServerState) (doc : Doc) : ServerState × List SchedAction :=
  match s.validationByDoc.lookup doc.uri with
  | none =>
    if isUriBlackListed doc.uri then
      ({ s with validationByDoc := (doc.uri, PipelineKind.blacklisted) :: s.validationByDoc },
        [SchedAction.createPipeline doc.uri])
    else
      ({ s with validationByDoc := (doc.uri, PipelineKind.active (some doc)) :: s.validationByDoc },
        [SchedAction.createPipeline doc.uri])
  | some PipelineKind.blacklisted => (s, [])
  | some (PipelineKind.active _) =>
    ({ s with validationByDoc := setPending s.validationByDoc doc.uri (some doc) }, [])

/-- The debounce timer of `uri`'s pipeline fires.  Nothing happens without a
pending document.  While the global gate is busy the firing is suppressed and
the pending document is dropped (not requeued).  A URI present in the
blackout map is dropped by the block filter.  Otherwise the analyzer call
starts: the busy flag is set and the call is recorded as in flight. -/
def timerFire (s : ServerState) (uri : String) : ServerState × List SchedAction :=
  match s.validationByDoc.lookup uri with
  | some (PipelineKind.active (some _)) =>
    if s.isValidationBusy then
      ({ s with validationByDoc := setPending s.validationByDoc uri none }, [])
    else if (s.blockValidation.lookup uri).isSome then
      ({ s with validationByDoc := setPending s.validationByDoc uri none }, [])
    else
      ({ s with
          validationByDoc := setPending s.validationByDoc uri none
          isValidationBusy := true
          inFlight := uri :: s.inFlight },
        [SchedAction.analyzeStart uri])
  | _ => (s, [])

/-- One scheduler step per event, mirroring the handlers in `server.ts`. -/
def step (s : ServerState) : SchedEvent → ServerState × List SchedAction
  | SchedEvent.change doc => routeDocEvent s doc
  | SchedEvent.timer uri => timerFire s uri
  | SchedEvent.done uri =>
    if uri ∈ s.inFlight then
      ({ s with isValidationBusy := false, inFlight := s.inFlight.erase uri },
        [SchedAction.publish uri])
    else (s, [])
  | SchedEvent.willSave uri version =>
    ({ s with blockValidation := mapSet s.blockValidation uri version }, [])
  | SchedEvent.didSave doc =>
    let s₁ := { s with blockValidation := mapDelete s.blockValidation doc.uri }
    routeDocEvent s₁ doc
  | SchedEvent.close uri =>
    ({ s with validationByDoc := mapDelete s.validationByDoc uri },
      [SchedAction.clearDiagnostics uri])

/-- Run a sequence of events, accumulating the emitted actions. -/
def runEvents (s : ServerState) : List SchedEvent → ServerState × List SchedAction
  | [] => (s, [])
  | e :: es =>
    ((runEvents (step s e).1 es).1, (step s e).2 ++ (runEvents (step s e).1 es).2)

/-! Concrete environments and inputs used to evaluate the definitions. -/

/-- A neutral settings environment. -/
def envBase : SettingsEnv :=
  { defaultSettings := {}
    workspaceFolders := []
    importedSettings := {}
    vscodeConfig := fun _ => ⟨{}, []⟩
    readConfigFiles := fun _ => {}
    existsSync := fun _ => true
    globMatch := fun _ _ => false }

/-- Environment where host settings and the folder config file disagree on
`checkLimit` (host 500, file 1000). -/
def envHostFileConflict : SettingsEnv :=
  { envBase with
    vscodeConfig := fun _ => ⟨{ checkLimit := some 500 }, []⟩
    readConfigFiles := fun _ => { checkLimit := some 1000 } }

/-- Environment realizing the merge-priority example: defaults
`{enabled := false, checkLimit := 500}`, imported `{checkLimit := 1000}`,
folder `{enabled := true}`. -/
def envMergePriority : SettingsEnv :=
  { envBase with
    defaultSettings := { enabled := some false, checkLimit := some 500 }
    workspaceFolders := [⟨"file:///ws", "ws"⟩]
    importedSettings := { checkLimit := some 1000 }
    readConfigFiles := fun _ => { enabled := some true } }

/-- A validation environment whose analyzer call rejects. -/
def envAnalyzerFails : ValidateEnv :=
  { isExcluded := fun _ => Except.ok false
    constructSettingsForText := fun _ => Except.ok { enabled := some true }
    analyze := fun _ _ => Except.error "analyzer failure" }

/-- A document on a blacklisted scheme. -/
def docGit : Doc := { uri := "git:/a", languageId := "plaintext", version := 1 }

/-- An ordinary file document. -/
def docFile : Doc := { uri := "file:///a.ts", languageId := "typescript", version := 1 }

/-- Settings enabling typescript validation. -/
def settingsTs : CSpellUserSettings :=
  { enabled := some true, enabledLanguageIds := some ["typescript"] }

/-- The document/settings pair for `docFile` under `settingsTs`. -/
def dspFile : DocSettingPair := { doc := docFile, settings := settingsTs }

/-! Helper lemmas. -/

theorem take_len_eq_iff {α : Type} :
    ∀ (l₁ l₂ : List α), l₁ = l₂.take l₁.length ↔ ∃ t, l₁ ++ t = l₂
  | [], l₂ => by simp
  | a :: as, [] => by simp
  | a :: as, b :: bs => by
    simp only [List.length_cons, List.take_succ_cons, List.cons_append, List.cons.injEq]
    constructor
    · rintro ⟨rfl, h⟩
      obtain ⟨t, ht⟩ := (take_len_eq_iff as bs).mp h
      exact ⟨t, rfl, ht⟩
    · rintro ⟨t, rfl, ht⟩
      exact ⟨rfl, (take_len_eq_iff as bs).mpr ⟨t, ht⟩⟩

theorem strTake_eq_iff (a b : String) :
    (a == strTake b a.length) = true ↔ ∃ t : String, a ++ t = b := by
  rw [beq_iff_eq]
  constructor
  · intro h
    have hd : a.data = b.data.take a.data.length := congrArg String.data h
    obtain ⟨t, ht⟩ := (take_len_eq_iff a.data b.data).mp hd
    exact ⟨⟨t⟩, String.ext (by simpa [String.data_append] using ht)⟩
  · rintro ⟨t, rfl⟩
    apply String.ext
    show a.data = ((a ++ t).data).take a.data.length
    exact (take_len_eq_iff a.data (a ++ t).data).mpr ⟨t.data, by simp [String.data_append]⟩

/-- C9: the debounce delay is taken from the settings resolved for the
event, but any falsy `spellCheckDelayMs` — including an explicit `0` — is
replaced by the 50 ms default, so a configured zero delay never yields an
immediate debounce. -/
theorem c9_zero_delay_replaced_by_default (s : CSpellUserSettings) :
    (s.spellCheckDelayMs = some 0 ∨ s.spellCheckDelayMs = none →
      debounceDelay s = defaultDebounce)
    ∧ (∀ d : Nat, s.spellCheckDelayMs = some d → d ≠ 0 → debounceDelay s = d)
    ∧ defaultDebounce = 50 := by
  refine ⟨?_, ?_, rfl⟩
  · rintro (h | h) <;> simp [debounceDelay, jsOrNat, h]
  · intro d h hd
    simp [debounceDelay, jsOrNat, h, hd]

theorem c9_zero_delay_replaced_by_default_witness :
    debounceDelay { spellCheckDelayMs := some 0 } = 50 :=
  (c9_zero_delay_replaced_by_default { spellCheckDelayMs := some 0 }).1 (Or.inl rfl)

/-- C10: workspace-folder matching is a raw character comparison of the
folder URI against the identical-length head of the document URI — exactly
the folders whose URI followed by some remainder gives the document URI
match (so folder `file:///proj` matches document `file:///project2/a.ts`),
and the result is ordered by descending URI length. -/
theorem c10_folder_match_raw_string_head :
    (∀ (folders : List WorkspaceFolder) (docUri : String) (f : WorkspaceFolder),
      f ∈ matchingFoldersForUri folders docUri ↔
        f ∈ folders ∧ ∃ rest : String, f.uri ++ rest = docUri)
    ∧ (∀ (folders : List WorkspaceFolder) (docUri : String),
      (matchingFoldersForUri folders docUri).Pairwise
        (fun a b => b.uri.length ≤ a.uri.length))
    ∧ matchingFoldersForUri [⟨"file:///proj", "p"⟩] "file:///project2/a.ts"
        = [⟨"file:///proj", "p"⟩] := by
  refine ⟨?_, ?_, by decide⟩
  · intro folders docUri f
    unfold matchingFoldersForUri
    rw [List.mem_reverse, List.mem_insertionSort, List.mem_filter, strTake_eq_iff]
  · intro folders docUri
    unfold matchingFoldersForUri
    exact List.pairwise_reverse.mpr (List.sorted_insertionSort folderLenLe _)

/-- C2 as stated is false: with host settings `{checkLimit := 500}` and
folder config-file settings `{checkLimit := 1000}`, the folder settings
computed for `file:///ws` carry `checkLimit = 1000` — the file value, not
the host-editor value. -/
theorem c2_counterexample_file_value_wins :
    (fetchSettingsFromVSCode envHostFileConflict "file:///ws").checkLimit = some 500
    ∧ (readSettingsForFolderUri envHostFileConflict "file:///ws").checkLimit = some 1000
    ∧ (_fetchSettingsForFolderUri envHostFileConflict "file:///ws").settings.checkLimit
        = some 1000
    ∧ ¬ (_fetchSettingsForFolderUri envHostFileConflict "file:///ws").settings.checkLimit
        = some 500 := by
  refine ⟨rfl, rfl, rfl, ?_⟩
  decide

/-- C2 amended: when folder-level settings are computed, the file-based
(cspell config file) settings are merged over the host-editor settings: for
every scalar key present in both sources the file value wins, and host
settings only supply defaults for keys the file leaves unset. -/
theorem c2_amended_file_over_host (env : SettingsEnv) (uri : String) :
    (∀ v, (readSettingsForFolderUri env uri).enabled = some v →
      (_fetchSettingsForFolderUri env uri).settings.enabled = some v)
    ∧ (∀ v, (readSettingsForFolderUri env uri).checkLimit = some v →
      (_fetchSettingsForFolderUri env uri).settings.checkLimit = some v)
    ∧ (∀ v, (readSettingsForFolderUri env uri).spellCheckDelayMs = some v →
      (_fetchSettingsForFolderUri env uri).settings.spellCheckDelayMs = some v)
    ∧ (∀ v, (readSettingsForFolderUri env uri).id = some v →
      (_fetchSettingsForFolderUri env uri).settings.id = some v)
    ∧ ((readSettingsForFolderUri env uri).enabled = none →
      (_fetchSettingsForFolderUri env uri).settings.enabled
        = (fetchSettingsFromVSCode env uri).enabled)
    ∧ ((readSettingsForFolderUri env uri).checkLimit = none →
      (_fetchSettingsForFolderUri env uri).settings.checkLimit
        = (fetchSettingsFromVSCode env uri).checkLimit)
    ∧ ((readSettingsForFolderUri env uri).spellCheckDelayMs = none →
      (_fetchSettingsForFolderUri env uri).settings.spellCheckDelayMs
        = (fetchSettingsFromVSCode env uri).spellCheckDelayMs) := by
  refine ⟨?_, ?_, ?_, ?_, ?_, ?_, ?_⟩ <;>
    first
      | (intro v h
         simp [_fetchSettingsForFolderUri, mkExtSettings, mergeSettings, mergeScalar, h])
      | (intro h
         simp [_fetchSettingsForFolderUri, mkExtSettings, mergeSettings, mergeScalar, h])

theorem c2_amended_file_over_host_witness :
    (readSettingsForFolderUri envHostFileConflict "file:///ws").checkLimit = some 1000
    ∧ (_fetchSettingsForFolderUri envHostFileConflict "file:///ws").settings.checkLimit
        = some 1000 :=
  ⟨rfl, (c2_amended_file_over_host envHostFileConflict "file:///ws").2.1 1000 rfl⟩

/-- C4: effective settings for a non-empty URI merge defaults, then imported
settings, then the folder settings, later sources overriding earlier ones on
scalar keys and array keys being concatenated; on the documented example the
resolved settings carry `enabled = true` and `checkLimit = 1000`. -/
theorem c4_merge_priority (a b : CSpellUserSettings) :
    (∀ v, b.checkLimit = some v → (mergeSettings a b).checkLimit = some v)
    ∧ (b.checkLimit = none → (mergeSettings a b).checkLimit = a.checkLimit)
    ∧ (∀ v, b.enabled = some v → (mergeSettings a b).enabled = some v)
    ∧ (b.enabled = none → (mergeSettings a b).enabled = a.enabled)
    ∧ (∀ x y, a.ignorePaths = some x → b.ignorePaths = some y →
      (mergeSettings a b).ignorePaths = some (x ++ y))
    ∧ (∀ x y, a.enabledLanguageIds = some x → b.enabledLanguageIds = some y →
      (mergeSettings a b).enabledLanguageIds = some (x ++ y))
    ∧ (fetchUriSettings envMergePriority "file:///ws/a.txt").enabled = some true
    ∧ (fetchUriSettings envMergePriority "file:///ws/a.txt").checkLimit = some 1000 := by
  refine ⟨?_, ?_, ?_, ?_, ?_, ?_, by decide, by decide⟩ <;>
    first
      | (intro v h
         simp [mergeSettings, mergeScalar, h])
      | (intro x y hx hy
         simp [mergeSettings, mergeList, hx, hy])
      | (intro h
         simp [mergeSettings, mergeScalar, h])

theorem c4_merge_priority_witness :
    (mergeSettings { checkLimit := some 500 } { checkLimit := some 1000 }).checkLimit
      = some 1000 :=
  (c4_merge_priority { checkLimit := some 500 } { checkLimit := some 1000 }).1 1000 rfl

/-- C7: `resetSettings` clears every cache and lazy value registered by
`DocumentSettings` and strictly increments the version counter, and the next
settings resolution for any URI after a reset performs the full (cache-free)
recomputation instead of returning a previously cached value. -/
theorem c7_reset_clears_everything (env : SettingsEnv) (s : DSState) (uri : String) :
    (resetSettings s).uriSettingsCache = []
    ∧ (resetSettings s).folderSettingsCache = []
    ∧ (resetSettings s).cspellFileSettingsByFolderCache = []
    ∧ (resetSettings s).vscodeConfigCache = []
    ∧ (resetSettings s).foldersLazy = none
    ∧ (resetSettings s).importedSettingsLazy = none
    ∧ (resetSettings s).version = s.version + 1
    ∧ s.version < (resetSettings s).version
    ∧ (getUriSettingsSt env (resetSettings s) uri).1 = _getUriSettings env uri := by
  refine ⟨rfl, rfl, rfl, rfl, rfl, rfl, rfl, Nat.lt_succ_self _, ?_⟩
  by_cases h : uri = ""
  · simp [getUriSettingsSt, _getUriSettingsSt, _getUriSettings, importedSettingsSt,
      resetSettings, h]
  · simp [getUriSettingsSt, _getUriSettingsSt, _getUriSettings, fetchUriSettingsSt,
      fetchUriSettings, foldersSt, importedSettingsSt, fetchSettingsForUriSt,
      _fetchSettingsForFolderUriSt, fetchSettingsFromVSCodeSt, fetchVSCodeConfigurationSt,
      fileSettingsByFolderSt, _fetchSettingsForFolderUri, fetchSettingsFromVSCode,
      findMatchingFolder, resetSettings, h]

/-- Case characterization of `validateTextDocument`: every path yields a
result keyed by the document URI, with diagnostics only on the fully enabled
success path. -/
theorem validateTextDocument_eq (env : ValidateEnv) (dsp : DocSettingPair) :
    validateTextDocument env dsp =
      if isUriAllowed dsp.doc.uri dsp.settings.allowedSchemas = false then
        { uri := dsp.doc.uri, diagnostics := [] }
      else
        match shouldValidateDocument env dsp.doc dsp.settings with
        | Except.error _ => { uri := dsp.doc.uri, diagnostics := [] }
        | Except.ok false => { uri := dsp.doc.uri, diagnostics := [] }
        | Except.ok true =>
          match env.constructSettingsForText dsp.doc with
          | Except.error _ => { uri := dsp.doc.uri, diagnostics := [] }
          | Except.ok stu =>
            if stu.enabled.getD false then
              match env.analyze dsp.doc stu with
              | Except.error _ => { uri := dsp.doc.uri, diagnostics := [] }
              | Except.ok diags => { uri := dsp.doc.uri, diagnostics := diags }
            else { uri := dsp.doc.uri, diagnostics := [] } := by
  cases h1 : isUriAllowed dsp.doc.uri dsp.settings.allowedSchemas
  · simp [validateTextDocument, validateAttempt, h1, Except.bind, Except.pure, Except.map, bind, pure, Functor.map]
  · cases h2 : shouldValidateDocument env dsp.doc dsp.settings with
    | error e => simp [validateTextDocument, validateAttempt, h1, h2, Except.bind, Except.pure, Except.map, bind, pure, Functor.map]
    | ok b =>
      cases b
      · simp [validateTextDocument, validateAttempt, h1, h2, Except.bind, Except.pure, Except.map, bind, pure, Functor.map]
      · cases h3 : env.constructSettingsForText dsp.doc with
        | error e => simp [validateTextDocument, validateAttempt, h1, h2, h3, Except.bind, Except.pure, Except.map, bind, pure, Functor.map]
        | ok stu =>
          cases h4 : stu.enabled.getD false
          · simp [validateTextDocument, validateAttempt, h1, h2, h3, h4, Except.bind, Except.pure, Except.map, bind, pure, Functor.map]
          · cases h5 : env.analyze dsp.doc stu <;>
              simp [validateTextDocument, validateAttempt, h1, h2, h3, h4, h5, Except.bind, Except.pure, Except.map, bind, pure, Functor.map]

/-- C6: `validateTextDocument` never throws and always yields a result for
the document's URI; it yields empty diagnostics when the scheme is not
allowed, when `shouldValidateDocument` does not yield `true` (including when
it throws), when settings construction throws, when the constructed settings
are not enabled, and when the analyzer call throws. -/
theorem c6_validate_never_throws (env : ValidateEnv) (dsp : DocSettingPair) :
    (validateTextDocument env dsp).uri = dsp.doc.uri
    ∧ (isUriAllowed dsp.doc.uri dsp.settings.allowedSchemas = false →
        validateTextDocument env dsp = { uri := dsp.doc.uri, diagnostics := [] })
    ∧ (shouldValidateDocument env dsp.doc dsp.settings ≠ Except.ok true →
        validateTextDocument env dsp = { uri := dsp.doc.uri, diagnostics := [] })
    ∧ (∀ e, env.constructSettingsForText dsp.doc = Except.error e →
        validateTextDocument env dsp = { uri := dsp.doc.uri, diagnostics := [] })
    ∧ (∀ stu, env.constructSettingsForText dsp.doc = Except.ok stu →
        stu.enabled.getD false = false →
        validateTextDocument env dsp = { uri := dsp.doc.uri, diagnostics := [] })
    ∧ (∀ stu e, env.constructSettingsForText dsp.doc = Except.ok stu →
        env.analyze dsp.doc stu = Except.error e →
        validateTextDocument env dsp = { uri := dsp.doc.uri, diagnostics := [] }) := by
  refine ⟨?_, ?_, ?_, ?_, ?_, ?_⟩
  · rw [validateTextDocument_eq]
    repeat' split
    all_goals rfl
  · intro h
    rw [validateTextDocument_eq]
    simp [h]
  · intro h
    rw [validateTextDocument_eq]
    split
    · rfl
    · cases h2 : shouldValidateDocument env dsp.doc dsp.settings with
      | error e => rfl
      | ok b =>
        cases b
        · rfl
        · exact absurd h2 h
  · intro e h3
    rw [validateTextDocument_eq]
    split
    · rfl
    · cases h2 : shouldValidateDocument env dsp.doc dsp.settings with
      | error e₂ => rfl
      | ok b =>
        cases b
        · rfl
        · simp [h3]
  · intro stu h3 h4
    rw [validateTextDocument_eq]
    split
    · rfl
    · cases h2 : shouldValidateDocument env dsp.doc dsp.settings with
      | error e₂ => rfl
      | ok b =>
        cases b
        · rfl
        · simp [h3, h4]
  · intro stu e h3 h5
    rw [validateTextDocument_eq]
    split
    · rfl
    · cases h2 : shouldValidateDocument env dsp.doc dsp.settings with
      | error e₂ => rfl
      | ok b =>
        cases b
        · rfl
        · by_cases h4 : stu.enabled.getD false = true
          · simp [h3, h4, h5]
          · simp [h3, h4]

theorem c6_validate_never_throws_witness :
    validateTextDocument envAnalyzerFails dspFile
      = { uri := "file:///a.ts", diagnostics := [] } :=
  (c6_validate_never_throws envAnalyzerFails dspFile).2.2.2.2.2
    { enabled := some true } "analyzer failure" rfl rfl

/-! Scheduler lemmas: association-list facts and state invariants. -/

theorem beq_false_of_not_eq {u v : String} (h : ¬ u = v) : (u == v) = false := by
  simp [h]

theorem lookup_cons_self {α : Type} (a1 : String) (a2 : α) (t : List (String × α)) :
    List.lookup a1 ((a1, a2) :: t) = some a2 := by
  simp [List.lookup]

theorem lookup_cons_ne {α : Type} {u a1 : String} (h : ¬ u = a1) (a2 : α)
    (t : List (String × α)) :
    List.lookup u ((a1, a2) :: t) = List.lookup u t := by
  simp [List.lookup, beq_false_of_not_eq h]

theorem lookup_map_if {α : Type} (m : List (String × α)) (k : String) (f : α → α)
    (u : String) :
    (m.map (fun p => if p.1 == k then (p.1, f p.2) else p)).lookup u
      = if u = k then (m.lookup u).map f else m.lookup u := by
  induction m with
  | nil => simp
  | cons a t ih =>
    obtain ⟨a1, a2⟩ := a
    simp only [List.map_cons]
    by_cases hak : a1 = k
    · subst hak
      rw [if_pos (beq_self_eq_true a1)]
      by_cases hua : u = a1
      · subst hua
        rw [lookup_cons_self, lookup_cons_self, if_pos rfl]
        rfl
      · rw [lookup_cons_ne hua, lookup_cons_ne hua, ih]
    · rw [if_neg (by simp [hak] : ¬ ((a1 == k) = true))]
      by_cases hua : u = a1
      · subst hua
        rw [lookup_cons_self, lookup_cons_self, if_neg hak]
      · rw [lookup_cons_ne hua, lookup_cons_ne hua, ih]

theorem lookup_setPending (m : List (String × PipelineKind)) (uri : String)
    (pending : Option Doc) (u : String) :
    (setPending m uri pending).lookup u
      = if u = uri then (m.lookup u).map (fun _ => PipelineKind.active pending)
        else m.lookup u :=
  lookup_map_if m uri (fun _ => PipelineKind.active pending) u

theorem lookup_mapSet {α : Type} (m : List (String × α)) (k : String) (v : α) (u : String) :
    (mapSet m k v).lookup u = if u = k then some v else m.lookup u := by
  unfold mapSet
  by_cases h : (m.lookup k).isSome
  · rw [if_pos h, lookup_map_if m k (fun _ => v) u]
    by_cases huk : u = k
    · subst huk
      obtain ⟨w, hw⟩ := Option.isSome_iff_exists.mp h
      simp [hw]
    · simp [huk]
  · rw [if_neg h]
    by_cases huk : u = k
    · subst huk
      simp [List.lookup]
    · simp [List.lookup, beq_false_of_not_eq huk, huk]

theorem lookup_mapDelete {α : Type} (m : List (String × α)) (k u : String) :
    (mapDelete m k).lookup u = if u = k then none else m.lookup u := by
  induction m with
  | nil => simp [mapDelete]
  | cons a t ih =>
    obtain ⟨a1, a2⟩ := a
    unfold mapDelete at *
    rw [List.filter_cons]
    by_cases hak : a1 = k
    · subst hak
      rw [if_neg (by simp : ¬ ((a1 != a1) = true))]
      by_cases hua : u = a1
      · subst hua
        rw [ih, if_pos rfl, if_pos rfl]
      · rw [ih, if_neg hua, if_neg hua, lookup_cons_ne hua]
    · rw [if_pos (by simp [hak] : ((a1 != k) = true))]
      by_cases hua : u = a1
      · subst hua
        rw [lookup_cons_self, if_neg hak, lookup_cons_self]
      · rw [lookup_cons_ne hua, lookup_cons_ne hua, ih]

theorem keys_setPending (m : List (String × PipelineKind)) (uri : String)
    (pending : Option Doc) :
    (setPending m uri pending).map Prod.fst = m.map Prod.fst := by
  unfold setPending
  rw [List.map_map]
  apply List.map_congr_left
  intro a _
  by_cases h : a.1 = uri <;> simp [h]

theorem lookup_none_not_mem_keys {α : Type} (m : List (String × α)) (k : String)
    (h : m.lookup k = none) : k ∉ m.map Prod.fst := by
  induction m with
  | nil => simp
  | cons a t ih =>
    obtain ⟨a1, a2⟩ := a
    by_cases hka : k = a1
    · subst hka
      rw [lookup_cons_self] at h
      exact absurd h (by simp)
    · rw [lookup_cons_ne hka] at h
      simp only [List.map_cons, List.mem_cons]
      rintro (h1 | h2)
      · exact hka h1
      · exact ih h h2

theorem not_mem_keys_filter_nil {α : Type} (m : List (String × α)) (k : String)
    (h : k ∉ m.map Prod.fst) : m.filter (fun p => p.1 == k) = [] := by
  induction m with
  | nil => simp
  | cons a t ih =>
    obtain ⟨a1, a2⟩ := a
    simp only [List.map_cons, List.mem_cons, not_or] at h
    rw [List.filter_cons,
      if_neg (by simp only [beq_iff_eq]; exact fun hh => h.1 hh.symm)]
    exact ih h.2

theorem nodup_keys_filter_le_one {α : Type} (m : List (String × α)) (k : String)
    (h : (m.map Prod.fst).Nodup) : (m.filter (fun p => p.1 == k)).length ≤ 1 := by
  induction m with
  | nil => simp
  | cons a t ih =>
    obtain ⟨a1, a2⟩ := a
    simp only [List.map_cons, List.nodup_cons] at h
    rw [List.filter_cons]
    by_cases hak : a1 = k
    · subst hak
      rw [if_pos (beq_self_eq_true a1), not_mem_keys_filter_nil t a1 h.1]
      simp
    · rw [if_neg (by simp [hak] : ¬ ((a1 == k) = true))]
      exact ih h.2

/-- Busy-gate invariant: when the busy flag is clear nothing is in flight,
and never more than one analyzer call is in flight. -/
def BusyInv (s : ServerState) : Prop :=
  (s.isValidationBusy = false → s.inFlight = []) ∧ s.inFlight.length ≤ 1

theorem busyInv_initial : BusyInv initialServerState :=
  ⟨fun _ => rfl, by simp [initialServerState]⟩

theorem busyInv_routeDocEvent (s : ServerState) (doc : Doc) (h : BusyInv s) :
    BusyInv (routeDocEvent s doc).1 := by
  unfold routeDocEvent
  split
  · split <;> exact h
  · exact h
  · exact h

theorem busyInv_timerFire (s : ServerState) (uri : String) (h : BusyInv s) :
    BusyInv (timerFire s uri).1 := by
  obtain ⟨h1, h2⟩ := h
  unfold timerFire
  split
  · split
    · exact ⟨h1, h2⟩
    · split
      · exact ⟨h1, h2⟩
      · rename_i hnb hnblock
        have hfl : s.inFlight = [] := h1 (by simpa using hnb)
        exact ⟨fun hh => Bool.noConfusion hh, by simp [hfl]⟩
  · exact ⟨h1, h2⟩

theorem busyInv_step (s : ServerState) (e : SchedEvent) (h : BusyInv s) :
    BusyInv (step s e).1 := by
  cases e with
  | change doc => exact busyInv_routeDocEvent s doc h
  | timer uri => exact busyInv_timerFire s uri h
  | done uri =>
    obtain ⟨h1, h2⟩ := h
    simp only [step]
    split
    · rename_i hmem
      have hfl : s.inFlight = [uri] := by
        cases hl : s.inFlight with
        | nil => rw [hl] at hmem; cases hmem
        | cons x xs =>
          cases xs with
          | nil =>
            rw [hl] at hmem
            have hx : uri = x := by simpa using hmem
            rw [hx]
          | cons y ys =>
            rw [hl] at h2
            simp at h2
      refine ⟨fun _ => ?_, ?_⟩ <;> simp [hfl]
    · exact ⟨h1, h2⟩
  | willSave uri version => exact h
  | didSave doc => exact busyInv_routeDocEvent _ doc h
  | close uri => exact h

theorem busyInv_runEvents (es : List SchedEvent) (s : ServerState) (h : BusyInv s) :
    BusyInv (runEvents s es).1 := by
  induction es generalizing s with
  | nil => exact h
  | cons e es ih => exact ih (step s e).1 (busyInv_step s e h)

theorem routeDocEvent_no_analyzeStart (s : ServerState) (doc : Doc) (u : String)
    (hm : SchedAction.analyzeStart u ∈ (routeDocEvent s doc).2) : False := by
  unfold routeDocEvent at hm
  split at hm
  · split at hm <;> simp at hm
  · simp at hm
  · simp at hm

theorem analyzeStart_only_when_idle (s : ServerState) (e : SchedEvent) (u : String)
    (h : BusyInv s) (hm : SchedAction.analyzeStart u ∈ (step s e).2) :
    s.inFlight = [] := by
  cases e with
  | change doc =>
    simp only [step] at hm
    exact absurd hm (fun hm => routeDocEvent_no_analyzeStart s doc u hm)
  | timer uri =>
    simp only [step] at hm
    unfold timerFire at hm
    split at hm
    · split at hm
      · simp at hm
      · split at hm
        · simp at hm
        · rename_i hnb hnblock
          exact h.1 (by simpa using hnb)
    · simp at hm
  | done uri =>
    simp only [step] at hm
    split at hm <;> simp at hm
  | willSave uri version => simp [step] at hm
  | didSave doc =>
    simp only [step] at hm
    exact absurd hm (fun hm => routeDocEvent_no_analyzeStart _ doc u hm)
  | close uri => simp [step] at hm

/-- C1: at most one analyzer invocation is in flight process-wide at any
reachable point of execution, and an analyzer call only starts when no other
is in flight — analyzer calls never overlap and are strictly serialized by
the global busy gate. -/
theorem c1_analyzer_calls_never_overlap :
    (∀ es : List SchedEvent,
      ((runEvents initialServerState es).1).inFlight.length ≤ 1)
    ∧ (∀ (es : List SchedEvent) (e : SchedEvent) (u : String),
      SchedAction.analyzeStart u ∈ (step (runEvents initialServerState es).1 e).2 →
      ((runEvents initialServerState es).1).inFlight = []) := by
  constructor
  · intro es
    exact (busyInv_runEvents es initialServerState busyInv_initial).2
  · intro es e u hm
    exact analyzeStart_only_when_idle _ e u
      (busyInv_runEvents es initialServerState busyInv_initial) hm

theorem c1_analyzer_calls_never_overlap_witness :
    SchedAction.analyzeStart "file:///a.ts"
        ∈ (step (runEvents initialServerState [SchedEvent.change docFile]).1
            (SchedEvent.timer "file:///a.ts")).2
    ∧ ((runEvents initialServerState [SchedEvent.change docFile]).1).inFlight = [] := by
  have hstep : (step (runEvents initialServerState [SchedEvent.change docFile]).1
      (SchedEvent.timer "file:///a.ts")).2
      = [SchedAction.analyzeStart "file:///a.ts"] := by decide
  have hmem : SchedAction.analyzeStart "file:///a.ts"
      ∈ (step (runEvents initialServerState [SchedEvent.change docFile]).1
          (SchedEvent.timer "file:///a.ts")).2 := by
    rw [hstep]
    exact List.mem_singleton.mpr rfl
  exact ⟨hmem,
    c1_analyzer_calls_never_overlap.2 [SchedEvent.change docFile]
      (SchedEvent.timer "file:///a.ts") "file:///a.ts" hmem⟩

/-- Key-uniqueness invariant of the pipeline tracking map. -/
def KeysNodup (s : ServerState) : Prop :=
  (s.validationByDoc.map Prod.fst).Nodup

theorem keysNodup_initial : KeysNodup initialServerState := by
  simp [initialServerState, KeysNodup]

theorem keysNodup_routeDocEvent (s : ServerState) (doc : Doc) (h : KeysNodup s) :
    KeysNodup (routeDocEvent s doc).1 := by
  unfold KeysNodup at *
  unfold routeDocEvent
  split
  · rename_i hnone
    split
    · rw [List.map_cons]
      exact List.nodup_cons.mpr ⟨lookup_none_not_mem_keys _ _ hnone, h⟩
    · rw [List.map_cons]
      exact List.nodup_cons.mpr ⟨lookup_none_not_mem_keys _ _ hnone, h⟩
  · exact h
  · simpa [keys_setPending] using h

theorem keysNodup_timerFire (s : ServerState) (uri : String) (h : KeysNodup s) :
    KeysNodup (timerFire s uri).1 := by
  unfold KeysNodup at *
  unfold timerFire
  split
  · split
    · simpa [keys_setPending] using h
    · split
      · simpa [keys_setPending] using h
      · simpa [keys_setPending] using h
  · exact h

theorem keysNodup_step (s : ServerState) (e : SchedEvent) (h : KeysNodup s) :
    KeysNodup (step s e).1 := by
  cases e with
  | change doc => exact keysNodup_routeDocEvent s doc h
  | timer uri => exact keysNodup_timerFire s uri h
  | done uri =>
    simp only [step]
    split
    · exact h
    · exact h
  | willSave uri version => exact h
  | didSave doc => exact keysNodup_routeDocEvent _ doc h
  | close uri =>
    unfold KeysNodup at *
    have hsub : List.Sublist (mapDelete s.validationByDoc uri) s.validationByDoc :=
      List.filter_sublist _
    exact List.Nodup.sublist (List.Sublist.map Prod.fst hsub) h

theorem keysNodup_runEvents (es : List SchedEvent) (s : ServerState) (h : KeysNodup s) :
    KeysNodup (runEvents s es).1 := by
  induction es generalizing s with
  | nil => exact h
  | cons e es ih => exact ih (step s e).1 (keysNodup_step s e h)

/-- C8: any number of document-change events leaves at most one tracked
pipeline entry per URI, and an event for a URI that already has a pipeline
creates nothing (no action is emitted and the key set is unchanged). -/
theorem c8_at_most_one_pipeline_per_uri :
    (∀ (es : List SchedEvent) (uri : String),
      ((runEvents initialServerState es).1.validationByDoc.filter
          (fun p => p.1 == uri)).length ≤ 1)
    ∧ (∀ (s : ServerState) (doc : Doc),
      (s.validationByDoc.lookup doc.uri).isSome = true →
        (step s (SchedEvent.change doc)).2 = []
        ∧ (step s (SchedEvent.change doc)).1.validationByDoc.map Prod.fst
            = s.validationByDoc.map Prod.fst) := by
  constructor
  · intro es uri
    exact nodup_keys_filter_le_one _ _
      (keysNodup_runEvents es initialServerState keysNodup_initial)
  · intro s doc hsome
    simp only [step]
    unfold routeDocEvent
    split
    · rename_i hnone
      rw [hnone] at hsome
      simp at hsome
    · exact ⟨rfl, rfl⟩
    · exact ⟨rfl, keys_setPending _ _ _⟩

theorem c8_at_most_one_pipeline_per_uri_witness :
    (step (runEvents initialServerState [SchedEvent.change docFile]).1
        (SchedEvent.change docFile)).2 = []
    ∧ (step (runEvents initialServerState [SchedEvent.change docFile]).1
        (SchedEvent.change docFile)).1.validationByDoc.map Prod.fst
      = (runEvents initialServerState [SchedEvent.change docFile]).1.validationByDoc.map
          Prod.fst :=
  c8_at_most_one_pipeline_per_uri.2
    (runEvents initialServerState [SchedEvent.change docFile]).1 docFile (by decide)

/-- Blacklist invariant: a URI on the scheme block-list never has an active
pipeline (only ever a consume-and-ignore one). -/
def BlackInv (s : ServerState) : Prop :=
  ∀ uri p, s.validationByDoc.lookup uri = some (PipelineKind.active p) →
    isUriBlackListed uri = false

theorem blackInv_initial : BlackInv initialServerState := by
  intro uri p h
  simp [initialServerState, List.lookup] at h

theorem blackInv_setPending (s : ServerState) (uri : String) (pd : Option Doc)
    (h : BlackInv s) (hbl : isUriBlackListed uri = false) (u : String) (q : Option Doc)
    (hl : (setPending s.validationByDoc uri pd).lookup u = some (PipelineKind.active q)) :
    isUriBlackListed u = false := by
  rw [lookup_setPending] at hl
  by_cases hu : u = uri
  · subst hu
    exact hbl
  · rw [if_neg hu] at hl
    exact h u q hl

theorem blackInv_routeDocEvent (s : ServerState) (doc : Doc) (h : BlackInv s) :
    BlackInv (routeDocEvent s doc).1 := by
  unfold routeDocEvent
  split
  · rename_i hnone
    split
    · rename_i hbl
      intro uri p hl
      by_cases huri : uri = doc.uri
      · subst huri
        rw [lookup_cons_self] at hl
        cases hl
      · rw [lookup_cons_ne huri] at hl
        exact h uri p hl
    · rename_i hbl
      intro uri p hl
      by_cases huri : uri = doc.uri
      · subst huri
        simpa using hbl
      · rw [lookup_cons_ne huri] at hl
        exact h uri p hl
  · exact h
  · rename_i pd hact
    intro uri p hl
    exact blackInv_setPending s doc.uri (some doc) h (h doc.uri pd hact) uri p hl

theorem blackInv_timerFire (s : ServerState) (uri : String) (h : BlackInv s) :
    BlackInv (timerFire s uri).1 := by
  unfold timerFire
  split
  · rename_i d hact
    have hbl : isUriBlackListed uri = false := h uri (some d) hact
    split
    · exact fun u q hl => blackInv_setPending s uri none h hbl u q hl
    · split
      · exact fun u q hl => blackInv_setPending s uri none h hbl u q hl
      · exact fun u q hl => blackInv_setPending s uri none h hbl u q hl
  · exact h

theorem blackInv_step (s : ServerState) (e : SchedEvent) (h : BlackInv s) :
    BlackInv (step s e).1 := by
  cases e with
  | change doc => exact blackInv_routeDocEvent s doc h
  | timer uri => exact blackInv_timerFire s uri h
  | done uri =>
    simp only [step]
    split
    · exact h
    · exact h
  | willSave uri version => exact h
  | didSave doc => exact blackInv_routeDocEvent _ doc h
  | close uri =>
    intro u q hl
    simp only [step] at hl
    rw [lookup_mapDelete] at hl
    by_cases hu : u = uri
    · rw [if_pos hu] at hl
      cases hl
    · rw [if_neg hu] at hl
      exact h u q hl

theorem step_no_blacklisted_start (s : ServerState) (e : SchedEvent) (u : String)
    (h : BlackInv s) (hbl : isUriBlackListed u = true) :
    SchedAction.analyzeStart u ∉ (step s e).2 := by
  intro hm
  cases e with
  | change doc => exact routeDocEvent_no_analyzeStart s doc u (by simpa [step] using hm)
  | timer uri =>
    simp only [step] at hm
    unfold timerFire at hm
    split at hm
    · rename_i d hact
      have hbf : isUriBlackListed uri = false := h uri (some d) hact
      split at hm
      · simp at hm
      · split at hm
        · simp at hm
        · have hu : u = uri := by simpa using hm
          rw [hu, hbf] at hbl
          cases hbl
    · simp at hm
  | done uri =>
    simp only [step] at hm
    split at hm <;> simp at hm
  | willSave uri version => simp [step] at hm
  | didSave doc => exact routeDocEvent_no_analyzeStart _ doc u (by simpa [step] using hm)
  | close uri => simp [step] at hm

theorem no_blacklisted_start_runEvents (es : List SchedEvent) (s : ServerState)
    (h : BlackInv s) (u : String) (hbl : isUriBlackListed u = true) :
    SchedAction.analyzeStart u ∉ (runEvents s es).2 := by
  induction es generalizing s with
  | nil => simp [runEvents]
  | cons e es ih =>
    simp only [runEvents, List.mem_append, not_or]
    exact ⟨step_no_blacklisted_start s e u h hbl,
      ih (step s e).1 (blackInv_step s e h)⟩

/-- C5: a document whose URI scheme is on the fixed block-list
(`git`, `output`, `debug`, `vscode`) never triggers an analyzer call, over
any event sequence; its first event installs a consume-and-ignore pipeline. -/
theorem c5_blacklisted_scheme_never_validated :
    (∀ (es : List SchedEvent) (u : String), isUriBlackListed u = true →
      SchedAction.analyzeStart u ∉ (runEvents initialServerState es).2)
    ∧ (∀ (s : ServerState) (doc : Doc), isUriBlackListed doc.uri = true →
      s.validationByDoc.lookup doc.uri = none →
      (step s (SchedEvent.change doc)).1.validationByDoc.lookup doc.uri
        = some PipelineKind.blacklisted) := by
  constructor
  · intro es u hbl
    exact no_blacklisted_start_runEvents es initialServerState blackInv_initial u hbl
  · intro s doc hbl hnone
    simp only [step]
    unfold routeDocEvent
    rw [hnone]
    rw [if_pos hbl]
    exact lookup_cons_self _ _ _

theorem c5_blacklisted_scheme_never_validated_witness :
    SchedAction.analyzeStart "git:/a"
        ∉ (runEvents initialServerState
            [SchedEvent.change docGit, SchedEvent.change docGit,
              SchedEvent.timer "git:/a"]).2
    ∧ (step initialServerState (SchedEvent.change docGit)).1.validationByDoc.lookup
          "git:/a"
        = some PipelineKind.blacklisted :=
  ⟨c5_blacklisted_scheme_never_validated.1
      [SchedEvent.change docGit, SchedEvent.change docGit, SchedEvent.timer "git:/a"]
      "git:/a" (by decide),
    c5_blacklisted_scheme_never_validated.2 initialServerState docGit (by decide) rfl⟩

theorem routeDocEvent_block (s : ServerState) (doc : Doc) :
    (routeDocEvent s doc).1.blockValidation = s.blockValidation := by
  unfold routeDocEvent
  split
  · split <;> rfl
  · rfl
  · rfl

theorem timerFire_block (s : ServerState) (uri : String) :
    (timerFire s uri).1.blockValidation = s.blockValidation := by
  unfold timerFire
  split
  · split
    · rfl
    · split <;> rfl
  · rfl

theorem blocked_preserved_step (s : ServerState) (e : SchedEvent) (U : String)
    (hb : (s.blockValidation.lookup U).isSome = true)
    (hnds : ∀ doc : Doc, e = SchedEvent.didSave doc → doc.uri ≠ U) :
    ((step s e).1.blockValidation.lookup U).isSome = true
    ∧ SchedAction.analyzeStart U ∉ (step s e).2 := by
  cases e with
  | change doc =>
    refine ⟨?_, fun hm => routeDocEvent_no_analyzeStart s doc U (by simpa [step] using hm)⟩
    simp only [step]
    rw [routeDocEvent_block]
    exact hb
  | timer uri =>
    constructor
    · simp only [step]
      rw [timerFire_block]
      exact hb
    · intro hm
      simp only [step] at hm
      unfold timerFire at hm
      split at hm
      · split at hm
        · simp at hm
        · split at hm
          · simp at hm
          · rename_i hnb hnblock
            have hu : U = uri := by simpa using hm
            rw [← hu] at hnblock
            exact hnblock hb
      · simp at hm
  | done uri =>
    constructor
    · simp only [step]
      split <;> exact hb
    · intro hm
      simp only [step] at hm
      split at hm <;> simp at hm
  | willSave uri version =>
    constructor
    · simp only [step]
      rw [lookup_mapSet]
      by_cases hu : U = uri
      · rw [if_pos hu]
        rfl
      · rw [if_neg hu]
        exact hb
    · intro hm
      simp [step] at hm
  | didSave doc =>
    have hne : doc.uri ≠ U := hnds doc rfl
    refine ⟨?_, fun hm => routeDocEvent_no_analyzeStart _ doc U (by simpa [step] using hm)⟩
    simp only [step]
    rw [routeDocEvent_block]
    dsimp only
    rw [lookup_mapDelete, if_neg (fun hu => hne hu.symm)]
    exact hb
  | close uri =>
    constructor
    · simp only [step]
      exact hb
    · intro hm
      simp [step] at hm

theorem blocked_no_start_runEvents (es : List SchedEvent) (s : ServerState) (U : String)
    (hb : (s.blockValidation.lookup U).isSome = true)
    (hnds : ∀ doc : Doc, SchedEvent.didSave doc ∈ es → doc.uri ≠ U) :
    SchedAction.analyzeStart U ∉ (runEvents s es).2 := by
  induction es generalizing s with
  | nil => simp [runEvents]
  | cons e es ih =>
    simp only [runEvents, List.mem_append, not_or]
    have hstep := blocked_preserved_step s e U hb
      (fun doc he => hnds doc (by rw [he]; exact List.mem_cons_self _ _))
    exact ⟨hstep.2,
      ih (step s e).1 hstep.1 (fun doc hm => hnds doc (List.mem_cons_of_mem _ hm))⟩

/-- C3: once a will-save puts URI U in the block map, no analyzer call for U
starts — whatever change events arrive — until a did-save for U; the did-save
removes U from the block map and immediately re-enqueues U's document as a
fresh pending validation request on its pipeline. -/
theorem c3_save_blackout :
    (∀ (s : ServerState) (es : List SchedEvent) (U : String),
      (s.blockValidation.lookup U).isSome = true →
      (∀ doc : Doc, SchedEvent.didSave doc ∈ es → doc.uri ≠ U) →
      SchedAction.analyzeStart U ∉ (runEvents s es).2)
    ∧ (∀ (s : ServerState) (doc : Doc),
      (step s (SchedEvent.didSave doc)).1.blockValidation.lookup doc.uri = none)
    ∧ (∀ (s : ServerState) (doc : Doc),
      (s.validationByDoc.lookup doc.uri = none
        ∨ ∃ p, s.validationByDoc.lookup doc.uri = some (PipelineKind.active p)) →
      isUriBlackListed doc.uri = false →
      (step s (SchedEvent.didSave doc)).1.validationByDoc.lookup doc.uri
        = some (PipelineKind.active (some doc))) := by
  refine ⟨fun s es U hb hnds => blocked_no_start_runEvents es s U hb hnds, ?_, ?_⟩
  · intro s doc
    simp only [step]
    rw [routeDocEvent_block]
    dsimp only
    rw [lookup_mapDelete, if_pos rfl]
  · intro s doc hla hbl
    simp only [step]
    unfold routeDocEvent
    dsimp only
    rcases hla with hnone | ⟨p, hp⟩
    · rw [hnone, if_neg (by simp [hbl])]
      exact lookup_cons_self _ _ _
    · rw [hp]
      dsimp only
      rw [lookup_setPending, if_pos rfl, hp]
      rfl

theorem c3_save_blackout_witness :
    SchedAction.analyzeStart "file:///a.ts"
        ∉ (runEvents
            (runEvents initialServerState
              [SchedEvent.change docFile, SchedEvent.willSave "file:///a.ts" 1]).1
            [SchedEvent.change docFile, SchedEvent.timer "file:///a.ts"]).2
    ∧ (step (runEvents initialServerState
          [SchedEvent.change docFile, SchedEvent.willSave "file:///a.ts" 1]).1
          (SchedEvent.didSave docFile)).1.blockValidation.lookup "file:///a.ts" = none
    ∧ (step (runEvents initialServerState
          [SchedEvent.change docFile, SchedEvent.willSave "file:///a.ts" 1]).1
          (SchedEvent.didSave docFile)).1.validationByDoc.lookup "file:///a.ts"
        = some (PipelineKind.active (some docFile)) :=
  ⟨c3_save_blackout.1
      (runEvents initialServerState
        [SchedEvent.change docFile, SchedEvent.willSave "file:///a.ts" 1]).1
      [SchedEvent.change docFile, SchedEvent.timer "file:///a.ts"] "file:///a.ts"
      (by decide)
      (by
        intro doc hm
        simp [List.mem_cons] at hm),
    c3_save_blackout.2.1 _ docFile,
    c3_save_blackout.2.2
      (runEvents initialServerState
        [SchedEvent.change docFile, SchedEvent.willSave "file:///a.ts" 1]).1
      docFile (Or.inr ⟨some docFile, by decide⟩) (by decide)⟩

end SpellServer
